import Mathlib

/-!
# Verification of the blockchainAnalysis aggregation pipeline

A shallow embedding of the classification / aggregation / rendering logic of
the blockchainAnalysis repository (per-network node-distribution scripts),
together with theorems settling the frozen claims about it.

Python strings are modelled as Lean `String`s; the Python string primitives
used by the scripts (`strip`, `split`, `replace`, `in`, `lower`, `int()`)
are re-implemented over `List Char` below, restricted to ASCII case folding
(all classification tables in the repository are ASCII).

`collections.Counter` is modelled as an association list that preserves
first-insertion order, which is exactly the iteration order of
`Counter.items()` in Python 3.7+.

`pandas.DataFrame.sort_values(by='Count', ascending=False)` is modelled by
`pandasSortDesc`: pandas (`nargsort`) reverses the values *before* a stable
ascending argsort and reverses the resulting indexer *after* (the GH #6399
descending-stability fix), which preserves the order of tied rows whenever
the underlying numpy sort is stable; for the table sizes produced here
numpy's default sort runs its stable small-array insertion-sort path, so
the model is reverse, stable ascending insertion sort, reverse.
-/

/-! ## Python string primitives -/

/-- ASCII whitespace recognised by Python's `str.strip()` (the scripts only
ever strip ASCII data). -/
def isPyWhitespace (c : Char) : Bool :=
  c == ' ' || c == '\t' || c == '\n' || c == '\r' || c == '\x0b' || c == '\x0c'

/-- Strip characters satisfying `p` from both ends of a character list,
as Python's `str.strip(chars)` does. -/
def stripChars (p : Char → Bool) (s : List Char) : List Char :=
  ((s.dropWhile p).reverse.dropWhile p).reverse

/-- Python `s.strip()` (whitespace). -/
def pyStrip (s : String) : String := ⟨stripChars isPyWhitespace s.toList⟩

/-- Python `s.strip('/')` as used on Bitcoin version strings. -/
def pyStripSlashes (s : String) : String := ⟨stripChars (· == '/') s.toList⟩

/-- Is `needle` an initial segment of `hay`? -/
def isPrefixChars : List Char → List Char → Bool
  | [], _ => true
  | _ :: _, [] => false
  | a :: as, b :: bs => a == b && isPrefixChars as bs

/-- Does `needle` occur as a contiguous substring of `hay`?  Models the
Python `needle in hay` test on strings (the empty needle always matches). -/
def containsSub (needle : List Char) : List Char → Bool
  | [] => needle.isEmpty
  | c :: rest => isPrefixChars needle (c :: rest) || containsSub needle rest

/-- Python `needle in hay` on strings. -/
def pyIn (needle hay : String) : Bool := containsSub needle.toList hay.toList

/-- ASCII lower-casing, modelling Python `str.lower()` on the ASCII data
handled by the scripts. -/
def lowerStr (s : String) : String := ⟨s.toList.map Char.toLower⟩

/-- Split a character list at every occurrence of `sep`, keeping empty
pieces, like Python's `str.split(sep)` with a one-character separator. -/
def splitOnChar (sep : Char) (s : List Char) : List (List Char) :=
  s.foldr
    (fun c acc =>
      match acc with
      | [] => [[c]]
      | cur :: done => if c == sep then [] :: cur :: done else (c :: cur) :: done)
    [[]]

/-- Python `s.split(sep)` for a one-character separator. -/
def pySplit (sep : Char) (s : String) : List String :=
  (splitOnChar sep s.toList).map (⟨·⟩)

/-- Remove every (leftmost, non-overlapping) occurrence of `old` from the
second list, as Python's `s.replace(old, '')` does.  The first argument is
fuel (structural recursion so that the kernel can evaluate it); any fuel of
at least the list's length is enough, since each step consumes at least one
character. -/
def removeAllAux (old : List Char) : Nat → List Char → List Char
  | 0, l => l
  | _ + 1, [] => []
  | fuel + 1, c :: rest =>
    if old ≠ [] && isPrefixChars old (c :: rest) then
      removeAllAux old fuel (rest.drop (old.length - 1))
    else
      c :: removeAllAux old fuel rest

/-- Remove every (leftmost, non-overlapping) occurrence of `old`. -/
def removeAll (old s : List Char) : List Char := removeAllAux old s.length s

/-- Python `s.replace(old, '')`. -/
def pyRemove (old : String) (s : String) : String := ⟨removeAll old.toList s.toList⟩

/-- One ASCII decimal digit? -/
def isDigitChar (c : Char) : Bool := '0' ≤ c && c ≤ '9'

/-- Numeric value of a digit string (underscores already removed). -/
def digitsToNat (l : List Char) : Nat :=
  l.foldl (fun n c => n * 10 + (c.toNat - '0'.toNat)) 0

/-- No two adjacent underscores. -/
def noDoubleUnderscore : List Char → Bool
  | [] => true
  | [_] => true
  | a :: b :: rest => !(a == '_' && b == '_') && noDoubleUnderscore (b :: rest)

/-- Is `l` a valid body for Python `int()`: nonempty, first and last
characters are digits, every character a digit or an underscore, and no two
underscores adjacent (PEP 515 digit grouping)? -/
def validIntBody (l : List Char) : Bool :=
  !l.isEmpty &&
  l.all (fun c => isDigitChar c || c == '_') &&
  (match l with | [] => false | c :: _ => isDigitChar c) &&
  (match l.getLast? with | some c => isDigitChar c | none => false) &&
  noDoubleUnderscore l

/-- Python `int(s)` for decimal ASCII strings: strips whitespace, accepts an
optional sign and underscore-grouped digits; `none` models a raised
`ValueError`. -/
def pyParseInt (s : String) : Option Int :=
  let t := stripChars isPyWhitespace s.toList
  let signBody : Int × List Char :=
    match t with
    | '+' :: rest => (1, rest)
    | '-' :: rest => (-1, rest)
    | _ => (1, t)
  if validIntBody signBody.2 then
    some (signBody.1 * (digitsToNat (signBody.2.filter (fun c => !(c == '_'))) : Int))
  else
    none

/-! ## Counter and pandas models -/

/-- `Counter[k] += 1` on an association list that preserves first-insertion
order (the iteration order of `Counter.items()`). -/
def bump (k : String) : List (String × Nat) → List (String × Nat)
  | [] => [(k, 1)]
  | (k', n) :: rest => if k' = k then (k', n + 1) :: rest else (k', n) :: bump k rest

/-- Sum of the `Count` column. -/
def sumCounts (l : List (String × Nat)) : Nat := (l.map Prod.snd).sum

/-- One record step: count the label, or drop the unclassified record. -/
def countStep (classify : α → Option String) (acc : List (String × Nat)) (r : α) :
    List (String × Nat) :=
  match classify r with
  | some k => bump k acc
  | none => acc

/-- Fold a classifier over the records, counting each label it produces;
records classified to `none` are dropped. -/
def countClassified (classify : α → Option String) (records : List α) :
    List (String × Nat) :=
  records.foldl (countStep classify) []

/-- `DataFrame.sort_values(by=key, ascending=False)`: pandas' `nargsort`
reverses the values before a stable ascending argsort (numpy's stable
insertion-sort path at these table sizes) and reverses the indexer after,
so among equal keys the original (insertion) order is preserved. -/
def pandasSortDescBy (key : α → Nat) (rows : List α) : List α :=
  (List.insertionSort (fun a b => key a ≤ key b) rows.reverse).reverse

/-- Sort a count table by `Count` descending, pandas style. -/
def pandasSortDesc (rows : List (String × Nat)) : List (String × Nat) :=
  pandasSortDescBy Prod.snd rows

/-! ## BitcoinAnalyzer (src/scripts/blockchains/bitcoin.py) -/

/-- The `valid_clients` table of `BitcoinAnalyzer.process_client_distribution`. -/
def valid_clients : List (String × String) :=
  [("Satoshi", "Bitcoin Core"),
   ("btcwire", "btcd"),
   ("bcoin", "bcoin"),
   ("libbitcoin", "libbitcoin")]

/-- The `invalid_keywords` list of `BitcoinAnalyzer.process_client_distribution`. -/
def invalid_keywords : List String :=
  ["BTF", "CKCoinD", "Aurum", "Statoshi", "üôè", "Ladybug",
   "Classic", "ABC", "Unlimited", "Natasha"]

/-- The per-node classification of `BitcoinAnalyzer.process_client_distribution`:
`node_info[1]` is the version string (`none` models a null / missing field,
whose access path falls into the broad per-record `except`). -/
def classifyBitcoinClient (version : Option String) : Option String :=
  match version with
  | none => none
  | some v =>
    if v = "" then none
    else
      let versionClean := pyStripSlashes v
      if pyIn "Knots" versionClean then some "Bitcoin Knots"
      else
        let parts := pySplit ':' versionClean
        if parts.length < 2 then none
        else if invalid_keywords.any (fun kw => pyIn kw versionClean) then none
        else
          match valid_clients.lookup parts.headI with
          | some canonical => some canonical
          | none => none

/-- `BitcoinAnalyzer.process_client_distribution`: count classified clients,
sort by `Count` descending, keep rows with `Count > 1`. -/
def bitcoin_process_client_distribution (nodes : List (Option String)) :
    List (String × Nat) :=
  (pandasSortDesc (countClassified classifyBitcoinClient nodes)).filter
    (fun row => 1 < row.2)

/-- The country filter of `BitcoinAnalyzer.process_data`:
`node_info[7]` is kept unless falsy, `"null"` or `"TOR"`. -/
def classifyBitcoinCountry : Option String → Option String
  | none => none
  | some c => if c = "" || c = "null" || c = "TOR" then none else some c

/-- The `country_counts` table built by `BitcoinAnalyzer.process_data`. -/
def bitcoinCountryCounts (nodes : List (Option String)) : List (String × Nat) :=
  countClassified classifyBitcoinCountry nodes

/-- The geographic `BucketTable` of `BitcoinAnalyzer.process_data`. -/
def bitcoin_geographic_table (nodes : List (Option String)) : List (String × Nat) :=
  pandasSortDesc (bitcoinCountryCounts nodes)

/-! ## EthereumAnalyzer (src/scripts/blockchains/ethereum.py) -/

/-- A dynamically-typed Python value, as far as `_extract_ips` inspects one:
`None`, a string, a list, or anything else. -/
inductive PyVal where
  | pyNone
  | str (s : String)
  | list (xs : List PyVal)
  | other

/-- `EthereumAnalyzer._is_valid_ip`: exactly four `.`-separated parts, each
accepted by `int()` with a value between 0 and 255 (a `ValueError` is caught
and yields `False`). -/
def is_valid_ip (ip : String) : Bool :=
  let parts := pySplit '.' ip
  if parts.length ≠ 4 then false
  else
    parts.all fun p =>
      match pyParseInt p with
      | some n => 0 ≤ n && n ≤ 255
      | none => false

/-- The inner loop of `_extract_ips`: for each index `i` with
`parts[i] == 'ip4'` and `i + 1 < len(parts)`, the following part is kept
when `_is_valid_ip` accepts it. -/
def collectIp4 : List String → List String
  | [] => []
  | [_] => []
  | a :: b :: rest =>
    (if a = "ip4" ∧ is_valid_ip b = true then [b] else []) ++ collectIp4 (b :: rest)

/-- The element loop of `_extract_ips`: non-string entries are skipped. -/
def extractRaw : List PyVal → List String
  | [] => []
  | hd :: rest =>
    (match hd with
     | PyVal.str s => collectIp4 (pySplit '/' s)
     | _ => []) ++ extractRaw rest

/-- `EthereumAnalyzer._extract_ips`: a non-list input yields `[]`, otherwise
the collected IPs are deduplicated via `list(set(ips))` (whose order Python
leaves unspecified; the model keeps one canonical order). -/
def extract_ips (maddrs : PyVal) : List String :=
  match maddrs with
  | PyVal.list xs => (extractRaw xs).dedup
  | _ => []

/-- One line of the raw Ethereum node file as
`EthereumAnalyzer.process_hosting_distribution` sees it: blank, malformed
JSON (skipped), or a record carrying its `Maddrs` value
(`.get('Maddrs', [])`, so a missing key is `PyVal.list []`). -/
inductive EthLine where
  | blank
  | badJson
  | record (maddrs : PyVal)

/-- The suffix clean-up applied to ASN organisations in
`EthereumAnalyzer.process_hosting_distribution`. -/
def ethCleanOrg (org : String) : String :=
  pyStrip (pyRemove " Corp." (pyRemove " Corporation" (pyRemove " Inc."
    (pyRemove " Ltd." (pyRemove " LLC" org)))))

/-- The IPs a line contributes: `Maddrs is None` lines are skipped, the rest
go through `_extract_ips`. -/
def ethLineIps : EthLine → List String
  | EthLine.record PyVal.pyNone => []
  | EthLine.record m => extract_ips m
  | _ => []

/-- One counting step per extracted IP: `reader.asn(ip)` either fails (the
per-IP `except`, modelled by `none`) or returns an organisation; falsy
organisations are skipped, the rest are cleaned and counted. -/
def ethProcessIp (asn : String → Option String) (acc : List (String × Nat))
    (ip : String) : List (String × Nat) :=
  match asn ip with
  | none => acc
  | some org => if org = "" then acc else bump (ethCleanOrg org) acc

/-- The `hosting_counts` Counter of
`EthereumAnalyzer.process_hosting_distribution`, parameterised by the
GeoLite ASN lookup. -/
def ethHostCounts (asn : String → Option String) (lines : List EthLine) :
    List (String × Nat) :=
  lines.foldl (fun acc line => (ethLineIps line).foldl (ethProcessIp asn) acc) []

/-- `EthereumAnalyzer.process_hosting_distribution`: count and sort. -/
def eth_process_hosting_distribution (asn : String → Option String)
    (lines : List EthLine) : List (String × Nat) :=
  pandasSortDesc (ethHostCounts asn lines)

/-- `EthereumAnalyzer.process_geographic_distribution`:
`Counter(self.data['country_name'].dropna())`, then sort descending. -/
def eth_process_geographic_distribution (countries : List (Option String)) :
    List (String × Nat) :=
  pandasSortDesc (countClassified (fun c => c) countries)

/-! ## SolanaAnalyzer (src/scripts/blockchains/solana.py) -/

/-- The `known_providers` table of `SolanaAnalyzer.process_hosting_distribution`,
in Python dict insertion order. -/
def known_providers : List (String × List String) :=
  [("OVH", ["OVH", "OVH SAS", "OVH Hosting"]),
   ("Hetzner", ["Hetzner", "Hetzner Online", "Hetzner Online GmbH", "HETZNER"]),
   ("DigitalOcean", ["DIGITALOCEAN", "DigitalOcean", "DIGITALOCEAN-ASN", "DIGITALOCEAN-N"]),
   ("Amazon AWS", ["Amazon", "Amazon.com", "AWS", "AMAZON-AES", "AMAZON-02", "AMAZON-",
                   "Amazon Technologies", "AMAZON"]),
   ("Google Cloud", ["Google", "Google Cloud", "GOOGLE", "GCP", "Google LLC"]),
   ("Microsoft Azure", ["Microsoft", "Azure", "Microsoft Corporation", "MICROSOFT-CORP",
                        "MICROSOFT"]),
   ("Vultr", ["Vultr", "Vultr Holdings", "VULTR-AS", "AS-VULTR"]),
   ("Linode", ["Linode", "LINODE-AP", "LINODE", "Linode LLC"]),
   ("Equinix", ["Equinix", "EQUINIX", "PACKET", "Packet Host"]),
   ("Alibaba", ["Alibaba", "ALIBABA", "Aliyun"])]

/-- The exclusion keywords of `SolanaAnalyzer.process_hosting_distribution`. -/
def exclusion_keywords : List String :=
  ["residential", "university", "college", "school", "home", "telecom"]

/-- The corporate-suffix clean-up applied to ASN organisations in
`SolanaAnalyzer.process_hosting_distribution` (one more pair of suffixes
than the Ethereum variant). -/
def solCleanOrg (org : String) : String :=
  pyStrip (pyRemove " AG" (pyRemove " SA" (pyRemove " Corp."
    (pyRemove " Corporation" (pyRemove " Inc."
      (pyRemove " Ltd." (pyRemove " LLC" org)))))))

/-- `any(variation.lower() in org.lower() for variation in variations)`. -/
def variantHit (org : String) (variations : List String) : Bool :=
  variations.any fun v => pyIn (lowerStr v) (lowerStr org)

/-- `any(x in org.lower() for x in exclusion_keywords)`. -/
def hasExclusionKeyword (org : String) : Bool :=
  exclusion_keywords.any fun kw => pyIn kw (lowerStr org)

/-- The per-organisation classification inside
`SolanaAnalyzer.process_hosting_distribution`: clean the raw organisation,
credit the first provider (in table order) one of whose variants occurs
case-insensitively in it, otherwise keep the cleaned organisation as its
own category unless an exclusion keyword occurs in it, in which case the
record is dropped. -/
def classifySolanaOrg (rawOrg : String) : Option String :=
  let org := solCleanOrg rawOrg
  match known_providers.find? (fun p => variantHit org p.2) with
  | some p => some p.1
  | none => if hasExclusionKeyword org then none else some org

/-! ## CountryMapper and APIUtils (src/scripts/common/utils.py) -/

/-- The static `COUNTRY_MAPPING` table of `CountryMapper`. -/
def COUNTRY_MAPPING : List (String × String) :=
  [("US", "United States"), ("DE", "Germany"), ("FR", "France"), ("CA", "Canada"),
   ("GB", "United Kingdom"), ("NL", "Netherlands"), ("JP", "Japan"), ("SG", "Singapore"),
   ("RU", "Russia"), ("FI", "Finland"), ("CH", "Switzerland"), ("CN", "China"),
   ("KR", "South Korea"), ("AU", "Australia"), ("HK", "Hong Kong"), ("UA", "Ukraine"),
   ("IT", "Italy"), ("SE", "Sweden"), ("BR", "Brazil"), ("ES", "Spain"),
   ("VN", "Vietnam"), ("IN", "India"), ("TW", "Taiwan"), ("PL", "Poland"),
   ("IE", "Ireland"), ("ZA", "South Africa"), ("NZ", "New Zealand"), ("CZ", "Czechia"),
   ("LT", "Lithuania"), ("ID", "Indonesia"), ("NO", "Norway"), ("BE", "Belgium"),
   ("IR", "Iran"), ("AT", "Austria"), ("EE", "Estonia"), ("TR", "Turkey"),
   ("MY", "Myanmar"), ("HU", "Hungary"), ("MX", "Mexico"), ("TH", "Thailand"),
   ("SI", "Slovenia"), ("IL", "Israel"), ("RO", "Romania"), ("NG", "Nigeria"),
   ("PT", "Portugal"), ("SK", "Slovakia"), ("RS", "Serbia"), ("BG", "Bulgaria"),
   ("LV", "Latvia")]

/-- `CountryMapper.get_country_name`: `COUNTRY_MAPPING.get(code, code)`. -/
def get_country_name (code : String) : String :=
  (COUNTRY_MAPPING.lookup code).getD code

/-- The parse outcome of `response.json()`. -/
inductive JsonBody (α : Type) where
  | ok (a : α)
  | malformed

/-- The outcome of one `requests.request(...)` call: a transport-level
failure (connection error, timeout, ...) or a response with a status code
and a body. -/
inductive RequestOutcome (α : Type) where
  | transportError
  | response (status : Nat) (body : JsonBody α)

/-- The Python exceptions distinguished by the handlers of
`APIUtils.make_request`. -/
inductive PyExn where
  | requestException
  | otherException

/-- The `try` body of `APIUtils.make_request`: `requests.request` raises a
`RequestException` on transport failure; `raise_for_status()` raises
`HTTPError` (a `RequestException`) on 4xx/5xx; `response.json()` raises
`requests.exceptions.JSONDecodeError` (a `RequestException`) on a malformed
body; otherwise the parsed JSON is returned. -/
def makeRequestBody : RequestOutcome α → Except PyExn α
  | RequestOutcome.transportError => Except.error PyExn.requestException
  | RequestOutcome.response status body =>
    if 400 ≤ status ∧ status < 600 then Except.error PyExn.requestException
    else
      match body with
      | JsonBody.ok a => Except.ok a
      | JsonBody.malformed => Except.error PyExn.requestException

/-- `APIUtils.make_request`: the body wrapped in
`except requests.RequestException` and `except Exception` handlers, both of
which log and return `None`. -/
def make_request (o : RequestOutcome α) : Option α :=
  match makeRequestBody o with
  | Except.ok a => some a
  | Except.error PyExn.requestException => none
  | Except.error PyExn.otherException => none

/-! ## BlockchainNodesFetcher (src/scripts/node_counts/total_node_count_fetch_data.py) -/

/-- The outcome of one attempt inside `BlockchainNodesFetcher._make_request`:
a `requests.RequestException` (transport failure or bad status), a
`json.JSONDecodeError` from `response.json()`, or a parsed payload. -/
inductive FetchAttempt (α : Type) where
  | transportError
  | jsonError
  | success (a : α)

/-- The `retries = 3` constant of `BlockchainNodesFetcher._make_request`. -/
def fetchRetries : Nat := 3

/-- The `for attempt in range(retries)` loop of
`BlockchainNodesFetcher._make_request`, instrumented with the list of
`time.sleep` durations and the number of attempts made.  A transport
failure on the last attempt logs and returns `None`; earlier transport
failures sleep `1 * (attempt + 1)` seconds and retry; a JSON error logs and
returns `None` at once. -/
def retryFrom (outcomes : Nat → FetchAttempt α) :
    Nat → Nat → List Nat → Option α × List Nat × Nat
  | 0, attempt, sleeps => (none, sleeps, attempt)
  | remaining + 1, attempt, sleeps =>
    match outcomes attempt with
    | FetchAttempt.success a => (some a, sleeps, attempt + 1)
    | FetchAttempt.jsonError => (none, sleeps, attempt + 1)
    | FetchAttempt.transportError =>
      if attempt = fetchRetries - 1 then (none, sleeps, attempt + 1)
      else retryFrom outcomes remaining (attempt + 1) (sleeps ++ [1 * (attempt + 1)])

/-- `BlockchainNodesFetcher._make_request`, as a function of the per-attempt
outcomes: returns (result, sleep durations, attempts made). -/
def fetcher_make_request (outcomes : Nat → FetchAttempt α) :
    Option α × List Nat × Nat :=
  retryFrom outcomes fetchRetries 0 []

/-! ## PlottingUtils (src/scripts/common/plotting.py) -/

/-- `Percentage` column entry: `count / total_count * 100`, as exact
rational arithmetic in place of Python floats (all quantities involved are
exact decimals). -/
def pctOf (total count : Nat) : ℚ := (count : ℚ) / (total : ℚ) * 100

/-- `Percentage >= 1.5` as a Boolean, the filter used for `large_data` and
for the legend. -/
def pctGE (total count : Nat) : Bool := decide (pctOf total count ≥ 3 / 2)

/-- Mathlib's linear order on `String` agrees with the lexicographic key
order pandas uses for `groupby` keys. -/
instance stringLeTotal : IsTotal String (· ≤ ·) := ⟨fun a b => le_total a b⟩

instance stringLeTrans : IsTrans String (· ≤ ·) := ⟨fun _ _ _ h h' => le_trans h h'⟩

/-- `groupby('Category', as_index=False).sum()`: distinct categories in
ascending key order (pandas sorts group keys), each with the sum of its
counts. -/
def groupbySum (rows : List (String × Nat)) : List (String × Nat) :=
  (List.insertionSort (· ≤ ·) (rows.map Prod.fst).dedup).map
    fun c => (c, sumCounts (rows.filter (fun r => r.1 = c)))

/-- The data-frame transformation of
`PlottingUtils.plot_pie_chart_with_filtered_legend` up to the pie call:
optional country conversion, percentage computation, descending sort, the
`>= 1.5` / `< 1.5` split, and the conditional "Others" roll-up.  Returns
the `filtered_data` rows together with `total_count`. -/
def plotFilteredData (convert_countries : Bool) (rows0 : List (String × Nat)) :
    List (String × Nat) × Nat :=
  let rows := if convert_countries
    then rows0.map (fun r => (get_country_name r.1, r.2)) else rows0
  let total := sumCounts rows
  let sorted := pandasSortDesc rows
  let large := sorted.filter fun r => pctGE total r.2
  let others := sumCounts (sorted.filter fun r => !pctGE total r.2)
  if others > 0 then (groupbySum (large ++ [("Others", others)]), total)
  else (large, total)

/-- The legend of `plot_pie_chart_with_filtered_legend`: the categories of
`filtered_data` whose recomputed percentage (over the original
`total_count`) is at least 1.5%. -/
def plotLegendCategories (convert_countries : Bool)
    (rows0 : List (String × Nat)) : List String :=
  let fd := plotFilteredData convert_countries rows0
  (fd.1.filter fun r => pctGE fd.2 r.2).map Prod.fst

/-! ## Counting lemmas -/

theorem sumCounts_bump (k : String) (acc : List (String × Nat)) :
    sumCounts (bump k acc) = sumCounts acc + 1 := by
  induction acc with
  | nil => simp [bump, sumCounts]
  | cons hd tl ih =>
    obtain ⟨k', n⟩ := hd
    by_cases h : k' = k
    · simp [bump, h, sumCounts]
      omega
    · simp only [bump, if_neg h, sumCounts, List.map_cons, List.sum_cons] at ih ⊢
      omega

/-- Any fold whose step adds at most one to the count total is bounded by
the number of steps. -/
theorem sumCounts_foldl_le {β : Type u} (g : List (String × Nat) → β → List (String × Nat))
    (hg : ∀ acc r, sumCounts (g acc r) ≤ sumCounts acc + 1) (l : List β) :
    ∀ acc, sumCounts (l.foldl g acc) ≤ sumCounts acc + l.length := by
  induction l with
  | nil => simp
  | cons hd tl ih =>
    intro acc
    simp only [List.foldl_cons, List.length_cons]
    have h1 := hg acc hd
    have h2 := ih (g acc hd)
    omega

theorem sumCounts_countStep_le (f : α → Option String)
    (acc : List (String × Nat)) (r : α) :
    sumCounts (countStep f acc r) ≤ sumCounts acc + 1 := by
  cases hf : f r with
  | none => simp [countStep, hf]
  | some k => simp [countStep, hf, sumCounts_bump]

theorem sumCounts_countClassified_le (f : α → Option String) (l : List α) :
    sumCounts (countClassified f l) ≤ l.length := by
  have h := sumCounts_foldl_le (countStep f) (sumCounts_countStep_le f) l []
  simpa [countClassified, sumCounts] using h

theorem sumCounts_eq_of_perm {l l' : List (String × Nat)} (h : List.Perm l l') :
    sumCounts l = sumCounts l' :=
  (h.map Prod.snd).sum_eq

theorem pandasSortDescBy_perm (key : α → Nat) (rows : List α) :
    List.Perm (pandasSortDescBy key rows) rows :=
  ((List.insertionSort (fun a b => key a ≤ key b) rows.reverse).reverse_perm).trans
    ((List.perm_insertionSort _ rows.reverse).trans rows.reverse_perm)

theorem sumCounts_pandasSortDesc (rows : List (String × Nat)) :
    sumCounts (pandasSortDesc rows) = sumCounts rows :=
  sumCounts_eq_of_perm (pandasSortDescBy_perm Prod.snd rows)

theorem sumCounts_ethProcessIp_le (asn : String → Option String)
    (acc : List (String × Nat)) (ip : String) :
    sumCounts (ethProcessIp asn acc ip) ≤ sumCounts acc + 1 := by
  cases h : asn ip with
  | none => simp [ethProcessIp, h]
  | some org =>
    by_cases horg : org = ""
    · simp [ethProcessIp, h, horg]
    · simp [ethProcessIp, h, horg, sumCounts_bump]

theorem sumCounts_ethIpFold_le (asn : String → Option String) (ips : List String)
    (acc : List (String × Nat)) :
    sumCounts (ips.foldl (ethProcessIp asn) acc) ≤ sumCounts acc + ips.length :=
  sumCounts_foldl_le (ethProcessIp asn) (sumCounts_ethProcessIp_le asn) ips acc

theorem sumCounts_ethHostCounts_le (asn : String → Option String)
    (lines : List EthLine) :
    sumCounts (ethHostCounts asn lines) ≤
      (lines.map fun line => (ethLineIps line).length).sum := by
  suffices h : ∀ acc : List (String × Nat),
      sumCounts (lines.foldl
        (fun acc line => (ethLineIps line).foldl (ethProcessIp asn) acc) acc) ≤
        sumCounts acc + (lines.map fun line => (ethLineIps line).length).sum by
    simpa [ethHostCounts, sumCounts] using h []
  induction lines with
  | nil => simp
  | cons hd tl ih =>
    intro acc
    simp only [List.foldl_cons, List.map_cons, List.sum_cons]
    have h1 := sumCounts_ethIpFold_le asn (ethLineIps hd) acc
    have h2 := ih ((ethLineIps hd).foldl (ethProcessIp asn) acc)
    omega

/-! ## Sortedness lemmas -/

instance keyLeTotal (key : α → Nat) : IsTotal α (fun a b => key a ≤ key b) :=
  ⟨fun a b => Nat.le_total (key a) (key b)⟩

instance keyLeTrans (key : α → Nat) : IsTrans α (fun a b => key a ≤ key b) :=
  ⟨fun _ _ _ h h' => Nat.le_trans h h'⟩

theorem pairwise_ge_pandasSortDescBy (key : α → Nat) (rows : List α) :
    (pandasSortDescBy key rows).Pairwise (fun a b => key b ≤ key a) := by
  have h : (List.insertionSort (fun a b => key a ≤ key b) rows.reverse).Pairwise
      (fun a b => key a ≤ key b) :=
    List.sorted_insertionSort _ rows.reverse
  exact List.pairwise_reverse.mpr h

theorem pairwise_ge_pandasSortDesc (rows : List (String × Nat)) :
    (pandasSortDesc rows).Pairwise (fun a b => b.2 ≤ a.2) :=
  pairwise_ge_pandasSortDescBy Prod.snd rows

/-! ## Claim C1 -/

/-- C1 (amended): the sum of the Count values of a produced BucketTable is
bounded by the number of classification units consumed, not by the number
of input node records.  For the per-record Bitcoin country counting this is
the number of input records; for the Ethereum hosting distribution it is
the total number of IPs extracted across records, which can exceed the
record count because one record fans out to one count per extracted IP. -/
theorem claim_C1_count_sums_bounded :
    ∀ (nodes : List (Option String)) (asn : String → Option String)
      (lines : List EthLine),
      sumCounts (bitcoin_geographic_table nodes) ≤ nodes.length ∧
      sumCounts (eth_process_hosting_distribution asn lines) ≤
        (lines.map fun line => (ethLineIps line).length).sum := by
  intro nodes asn lines
  constructor
  · rw [bitcoin_geographic_table, sumCounts_pandasSortDesc]
    exact sumCounts_countClassified_le _ _
  · rw [eth_process_hosting_distribution, sumCounts_pandasSortDesc]
    exact sumCounts_ethHostCounts_le asn lines

/-- C1 is false as stated: a single Ethereum node record whose Maddrs list
two distinct valid IPs produces a hosting BucketTable whose counts sum to
2, strictly more than the 1 input node record, so classification does
duplicate records (one unit per extracted IP). -/
theorem claim_C1_counterexample :
    List.length
        [EthLine.record (PyVal.list
          [PyVal.str "/ip4/1.2.3.4/tcp/1", PyVal.str "/ip4/5.6.7.8/tcp/2"])] <
      sumCounts (eth_process_hosting_distribution (fun _ => some "OrgX")
        [EthLine.record (PyVal.list
          [PyVal.str "/ip4/1.2.3.4/tcp/1", PyVal.str "/ip4/5.6.7.8/tcp/2"])]) := by
  decide

/-! ## Claim C2 -/

/-- C2: every BucketTable produced by an aggregation step is sorted by
Count in descending order: any two adjacent rows i, i+1 of
`BitcoinAnalyzer.process_client_distribution` and of
`EthereumAnalyzer.process_geographic_distribution` output satisfy
count(i) ≥ count(i+1) (stated as `Pairwise`, which covers all pairs and in
particular adjacent ones). -/
theorem claim_C2_tables_sorted_desc :
    ∀ (nodes countries : List (Option String)),
      (bitcoin_process_client_distribution nodes).Pairwise (fun a b => b.2 ≤ a.2) ∧
      (eth_process_geographic_distribution countries).Pairwise
        (fun a b => b.2 ≤ a.2) := by
  intro nodes countries
  exact ⟨(pairwise_ge_pandasSortDesc _).filter _, pairwise_ge_pandasSortDesc _⟩

/-! ## Claim C3 -/

/-- If a predicate fails on the first k elements and holds at index k, then
`find?` returns the element at index k. -/
theorem find?_eq_some_of_take {p : α → Bool} {l : List α} (k : Fin l.length)
    (h1 : ∀ x ∈ l.take k.1, p x = false) (h2 : p (l.get k) = true) :
    l.find? p = some (l.get k) := by
  induction l with
  | nil => exact absurd k.2 (by simp)
  | cons a tl ih =>
    rcases k with ⟨i, hi⟩
    cases i with
    | zero =>
      exact List.find?_cons_of_pos _ h2
    | succ j =>
      have hpa : p a = false := h1 a (by simp [List.take_succ_cons])
      rw [List.find?_cons_of_neg _ (by simp [hpa])]
      exact ih ⟨j, by simpa using hi⟩
        (fun x hx => h1 x (by simp [List.take_succ_cons, hx]))
        h2

/-- C4: after suffix stripping, the organisation is matched
case-insensitively against the static provider-variant table; the first
provider in table order one of whose variants occurs as a substring wins;
an organisation matching no provider is kept as its own category unless it
contains an exclusion keyword, in which case the record is dropped. -/
theorem claim_C4_hosting_classification :
    ∀ rawOrg : String,
      (∀ k : Fin known_providers.length,
          (∀ p ∈ known_providers.take k.1,
            variantHit (solCleanOrg rawOrg) p.2 = false) →
          variantHit (solCleanOrg rawOrg) (known_providers.get k).2 = true →
          classifySolanaOrg rawOrg = some (known_providers.get k).1) ∧
      ((∀ p ∈ known_providers, variantHit (solCleanOrg rawOrg) p.2 = false) →
          hasExclusionKeyword (solCleanOrg rawOrg) = false →
          classifySolanaOrg rawOrg = some (solCleanOrg rawOrg)) ∧
      ((∀ p ∈ known_providers, variantHit (solCleanOrg rawOrg) p.2 = false) →
          hasExclusionKeyword (solCleanOrg rawOrg) = true →
          classifySolanaOrg rawOrg = none) := by
  intro rawOrg
  refine ⟨?_, ?_, ?_⟩
  · intro k h1 h2
    have hf : known_providers.find? (fun p => variantHit (solCleanOrg rawOrg) p.2)
        = some (known_providers.get k) :=
      find?_eq_some_of_take k (fun x hx => by simpa using h1 x hx) (by simpa using h2)
    simp [classifySolanaOrg, hf]
  · intro hall hexcl
    have hf : known_providers.find?
        (fun p => variantHit (solCleanOrg rawOrg) p.2) = none :=
      List.find?_eq_none.mpr (fun x hx => by simp [hall x hx])
    simp [classifySolanaOrg, hf, hexcl]
  · intro hall hexcl
    have hf : known_providers.find?
        (fun p => variantHit (solCleanOrg rawOrg) p.2) = none :=
      List.find?_eq_none.mpr (fun x hx => by simp [hall x hx])
    simp [classifySolanaOrg, hf, hexcl]

/-- Witness for C4: a provider hit (Hetzner, table index 1), an unmatched
organisation kept as its own category, and an excluded organisation
dropped. -/
theorem claim_C4_hosting_classification_witness :
    classifySolanaOrg "Hetzner Online GmbH" = some "Hetzner" ∧
    classifySolanaOrg "Contoso Networks" = some "Contoso Networks" ∧
    classifySolanaOrg "Example University" = none := by
  refine ⟨?_, ?_, ?_⟩
  · exact (claim_C4_hosting_classification "Hetzner Online GmbH").1
      ⟨1, by decide⟩ (by decide) (by decide)
  · exact (claim_C4_hosting_classification "Contoso Networks").2.1
      (by decide) (by decide)
  · exact (claim_C4_hosting_classification "Example University").2.2
      (by decide) (by decide)

/-! ## Claim C5 -/

theorem pctGE_100_60 : pctGE 100 60 = true := by
  simp only [pctGE, pctOf, decide_eq_true_eq]
  norm_num

theorem pctGE_100_35 : pctGE 100 35 = true := by
  simp only [pctGE, pctOf, decide_eq_true_eq]
  norm_num

theorem pctGE_100_5 : pctGE 100 5 = true := by
  simp only [pctGE, pctOf, decide_eq_true_eq]
  norm_num

theorem plotFilteredData_ABC_eval :
    plotFilteredData false [("A", 60), ("B", 35), ("C", 5)] =
      ([("A", 60), ("B", 35), ("C", 5)], 100) := by
  simp [plotFilteredData, pandasSortDesc, pandasSortDescBy,
        List.insertionSort, List.orderedInsert, sumCounts,
        pctGE_100_60, pctGE_100_35, pctGE_100_5]

theorem plotLegend_ABC_eval :
    plotLegendCategories false [("A", 60), ("B", 35), ("C", 5)] =
      ["A", "B", "C"] := by
  simp [plotLegendCategories, plotFilteredData_ABC_eval,
        pctGE_100_60, pctGE_100_35, pctGE_100_5]

/-- C5 is false as stated: with percentages A = 60%, B = 35%, C = 5% and
the 1.5% legend threshold, C's 5% is not below the threshold, so the
legend is not just A and B, and no "Others" bucket appears among the
rendered categories. -/
theorem claim_C5_counterexample :
    (plotLegendCategories false [("A", 60), ("B", 35), ("C", 5)] ==
      ["A", "B"]) = false ∧
    ((plotFilteredData false [("A", 60), ("B", 35), ("C", 5)]).1.map
      Prod.fst).contains "Others" = false := by
  rw [plotLegend_ABC_eval, plotFilteredData_ABC_eval]
  decide

/-- C5 (amended): for categories A, B, C at 60, 35 and 5 counts (60%, 35%
and 5% of the 100-count total) and the 1.5% render-legend threshold, the
legend produced by `plot_pie_chart_with_filtered_legend` contains exactly
A, B and C, in that order, and no "Others" bucket is produced: a category
is merged into "Others" only when its percentage is strictly below 1.5%,
and 5% is not. -/
theorem claim_C5_legend_keeps_5_percent :
    plotLegendCategories false [("A", 60), ("B", 35), ("C", 5)] =
      ["A", "B", "C"] ∧
    plotFilteredData false [("A", 60), ("B", 35), ("C", 5)] =
      ([("A", 60), ("B", 35), ("C", 5)], 100) :=
  ⟨plotLegend_ABC_eval, plotFilteredData_ABC_eval⟩

/-! ## Claim C6 -/

/-- C6 is false as stated: normalization is not idempotent on all of its
outputs.  The organisation "A LL LLCC" normalizes to the kept category
"A LLC" (removing the inner " LLC" creates a new " LLC"), and normalizing
that output again yields "A", not "A LLC". -/
theorem claim_C6_counterexample :
    classifySolanaOrg "A LL LLCC" = some "A LLC" ∧
    classifySolanaOrg "A LLC" = some "A" := by decide

/-- C6 (amended): normalization is idempotent on canonical provider names:
re-normalizing any of the ten canonical provider names of the table yields
that same name.  (It is not idempotent on kept unmatched organisations,
because Python replace-based suffix stripping can create new occurrences of
a suffix.) -/
theorem claim_C6_canonical_providers_fixed :
    known_providers.map (fun p => classifySolanaOrg p.1) =
      known_providers.map (fun p => some p.1) := by decide

/-! ## Claim C7 -/

/-- C7: `APIUtils.make_request` never lets an exception escape: for every
request outcome it either returns the parsed JSON the try-body produced, or
the body raised (transport error, 4xx/5xx status, or malformed JSON) and it
returns `none`, the single failure signal. -/
theorem claim_C7_make_request_total :
    ∀ (α : Type) (o : RequestOutcome α),
      (∃ a, makeRequestBody o = Except.ok a ∧ make_request o = some a) ∨
      ((∃ e, makeRequestBody o = Except.error e) ∧ make_request o = none) := by
  intro α o
  cases o with
  | transportError => exact Or.inr ⟨⟨PyExn.requestException, rfl⟩, rfl⟩
  | response status body =>
    by_cases h : 400 ≤ status ∧ status < 600
    · exact Or.inr ⟨⟨PyExn.requestException, by simp [makeRequestBody, h]⟩,
        by simp [make_request, makeRequestBody, h]⟩
    · cases body with
      | ok a =>
        exact Or.inl ⟨a, by simp [makeRequestBody, h],
          by simp [make_request, makeRequestBody, h]⟩
      | malformed =>
        exact Or.inr ⟨⟨PyExn.requestException, by simp [makeRequestBody, h]⟩,
          by simp [make_request, makeRequestBody, h]⟩

/-! ## Claim C8 -/

/-- C8: `BlockchainNodesFetcher._make_request` makes at most 3 attempts,
and when every attempt fails at the transport level it sleeps 1 second
after the first failure and 2 seconds after the second, then returns `None`
(rather than raising) after the third. -/
theorem claim_C8_retry_bounded_backoff :
    ∀ (α : Type) (outcomes : Nat → FetchAttempt α),
      (fetcher_make_request outcomes).2.2 ≤ 3 ∧
      ((∀ i, i < 3 → outcomes i = FetchAttempt.transportError) →
        fetcher_make_request outcomes = (none, [1, 2], 3)) := by
  intro α outcomes
  constructor
  · cases h0 : outcomes 0 with
    | success a => simp [fetcher_make_request, retryFrom, fetchRetries, h0]
    | jsonError => simp [fetcher_make_request, retryFrom, fetchRetries, h0]
    | transportError =>
      cases h1 : outcomes 1 with
      | success a => simp [fetcher_make_request, retryFrom, fetchRetries, h0, h1]
      | jsonError => simp [fetcher_make_request, retryFrom, fetchRetries, h0, h1]
      | transportError =>
        cases h2 : outcomes 2 with
        | success a => simp [fetcher_make_request, retryFrom, fetchRetries, h0, h1, h2]
        | jsonError => simp [fetcher_make_request, retryFrom, fetchRetries, h0, h1, h2]
        | transportError =>
          simp [fetcher_make_request, retryFrom, fetchRetries, h0, h1, h2]
  · intro hall
    have h0 := hall 0 (by omega)
    have h1 := hall 1 (by omega)
    have h2 := hall 2 (by omega)
    simp [fetcher_make_request, retryFrom, fetchRetries, h0, h1, h2]

/-- Witness for C8: all three attempts fail at the transport level. -/
theorem claim_C8_retry_bounded_backoff_witness :
    fetcher_make_request (α := Nat) (fun _ => FetchAttempt.transportError) =
      (none, [1, 2], 3) :=
  (claim_C8_retry_bounded_backoff Nat (fun _ => FetchAttempt.transportError)).2
    (fun _ _ => rfl)

/-! ## Claim C9 -/

/-- On an association list with duplicate-free keys, `lookup` finds the
value of any member pair. -/
theorem lookup_eq_some_of_mem {l : List (String × String)}
    (hnd : (l.map Prod.fst).Nodup) {c n : String} (h : (c, n) ∈ l) :
    l.lookup c = some n := by
  induction l with
  | nil => cases h
  | cons hd tl ih =>
    obtain ⟨c', n'⟩ := hd
    simp only [List.map_cons, List.nodup_cons] at hnd
    rcases List.mem_cons.mp h with heq | htl
    · cases heq
      simp [List.lookup]
    · by_cases hc : c = c'
      · subst hc
        exact absurd (List.mem_map_of_mem Prod.fst htl) hnd.1
      · have hbeq : (c == c') = false := beq_eq_false_iff_ne.mpr hc
        simp only [List.lookup, hbeq]
        exact ih hnd.2 htl

/-- `lookup` misses every key that is not in the key column. -/
theorem lookup_eq_none_of_not_mem_keys {l : List (String × String)} {c : String}
    (h : c ∉ l.map Prod.fst) : l.lookup c = none := by
  induction l with
  | nil => rfl
  | cons hd tl ih =>
    obtain ⟨c', n'⟩ := hd
    simp only [List.map_cons, List.mem_cons, not_or] at h
    have hbeq : (c == c') = false := beq_eq_false_iff_ne.mpr h.1
    simp only [List.lookup, hbeq]
    exact ih h.2

/-- C9: `CountryMapper.get_country_name` is a pure total function: every
code present in the static COUNTRY_MAPPING table maps to that table's
display name, and every other input is returned unchanged. -/
theorem claim_C9_get_country_name_pure :
    (∀ code name : String, (code, name) ∈ COUNTRY_MAPPING →
        get_country_name code = name) ∧
    (∀ code : String, code ∉ COUNTRY_MAPPING.map Prod.fst →
        get_country_name code = code) := by
  constructor
  · intro code name h
    have hnd : (COUNTRY_MAPPING.map Prod.fst).Nodup := by decide
    rw [get_country_name, lookup_eq_some_of_mem hnd h]
    rfl
  · intro code h
    rw [get_country_name, lookup_eq_none_of_not_mem_keys h]
    rfl

/-- Witness for C9: a mapped code and a pass-through code. -/
theorem claim_C9_get_country_name_pure_witness :
    get_country_name "US" = "United States" ∧ get_country_name "ZZ" = "ZZ" :=
  ⟨claim_C9_get_country_name_pure.1 "US" "United States" (by decide),
   claim_C9_get_country_name_pure.2 "ZZ" (by decide)⟩

/-! ## Claim C10 -/

/-- Everything `collectIp4` keeps passed `_is_valid_ip`. -/
theorem is_valid_of_mem_collectIp4 :
    ∀ (parts : List String) (ip : String), ip ∈ collectIp4 parts →
      is_valid_ip ip = true := by
  intro parts
  induction parts with
  | nil => intro ip h; simp [collectIp4] at h
  | cons a tl ih =>
    intro ip h
    cases tl with
    | nil => simp [collectIp4] at h
    | cons b rest =>
      simp only [collectIp4, List.mem_append] at h
      rcases h with h1 | h2
      · split at h1
        · rename_i hcond
          rw [List.mem_singleton] at h1
          subst h1
          exact hcond.2
        · simp at h1
      · exact ih ip h2

/-- Everything `extractRaw` collects passed `_is_valid_ip`. -/
theorem is_valid_of_mem_extractRaw :
    ∀ (xs : List PyVal) (ip : String), ip ∈ extractRaw xs →
      is_valid_ip ip = true := by
  intro xs
  induction xs with
  | nil => intro ip h; simp [extractRaw] at h
  | cons hd tl ih =>
    intro ip h
    simp only [extractRaw, List.mem_append] at h
    rcases h with h1 | h2
    · cases hd with
      | str s => exact is_valid_of_mem_collectIp4 _ ip h1
      | pyNone => simp at h1
      | list xs' => simp at h1
      | other => simp at h1
    · exact ih ip h2

/-- C10: `EthereumAnalyzer._extract_ips` always returns a duplicate-free
list whose every element is accepted by `_is_valid_ip`, and returns the
empty list on any input that is not a list. -/
theorem claim_C10_extract_ips_shape :
    ∀ maddrs : PyVal,
      (extract_ips maddrs).Nodup ∧
      (∀ ip ∈ extract_ips maddrs, is_valid_ip ip = true) ∧
      ((¬ ∃ xs, maddrs = PyVal.list xs) → extract_ips maddrs = []) := by
  intro maddrs
  refine ⟨?_, ?_, ?_⟩
  · cases maddrs with
    | list xs => exact List.nodup_dedup _
    | pyNone => exact List.nodup_nil
    | str s => exact List.nodup_nil
    | other => exact List.nodup_nil
  · intro ip hip
    cases maddrs with
    | list xs =>
      rw [extract_ips, List.mem_dedup] at hip
      exact is_valid_of_mem_extractRaw xs ip hip
    | pyNone => simp [extract_ips] at hip
    | str s => simp [extract_ips] at hip
    | other => simp [extract_ips] at hip
  · intro h
    cases maddrs with
    | list xs => exact absurd ⟨xs, rfl⟩ h
    | pyNone => rfl
    | str s => rfl
    | other => rfl

/-- Witness for C10: a record with one IP listed twice is deduplicated,
its IP is valid, and a bare string (not a list) yields the empty list. -/
theorem claim_C10_extract_ips_shape_witness :
    (extract_ips (PyVal.list [PyVal.str "/ip4/1.2.3.4/udp/30303",
        PyVal.str "/ip4/1.2.3.4/tcp/30303"])).Nodup ∧
    is_valid_ip "1.2.3.4" = true ∧
    extract_ips (PyVal.str "/ip4/1.2.3.4/tcp/30303") = [] := by
  refine ⟨(claim_C10_extract_ips_shape _).1, ?_, ?_⟩
  · exact (claim_C10_extract_ips_shape (PyVal.list
      [PyVal.str "/ip4/1.2.3.4/udp/30303",
       PyVal.str "/ip4/1.2.3.4/tcp/30303"])).2.1 "1.2.3.4" (by decide)
  · exact (claim_C10_extract_ips_shape _).2.2 (by rintro ⟨xs, hx⟩; cases hx)
